import Mathlib

/-!
Verification of the WAV demuxing core of the VibeVoice/Chatterbox TTS plugin
(src/index.ts: `parseWavSampleRate` and `wavToPcm`).

A Node.js `Buffer` is modelled as a `List Nat` of byte values (0..255).
The Buffer operations the code uses are modelled faithfully:

* `buf.toString("ascii", start, stop)`: Node's "ascii" decoding clamps the
  range to the buffer and unsets the high bit of every byte (byte & 0x7F)
  before mapping it to a character.  Chunk-id string comparison therefore
  compares the masked bytes.
* `buf.readUInt32LE(off)`: returns the unsigned 32-bit little-endian value
  when `off + 4 ≤ buf.length`, and otherwise throws `ERR_OUT_OF_RANGE`;
  modelled as an `Option`.
* `buf.subarray(start, stop)`: clamps both ends and never throws.

Potentially throwing code is embedded in `Except Unit`: `Except.error ()`
is an uncaught exception, `Except.ok` a normal return.
-/

namespace WavDemux

/-- Byte values of the ASCII string "RIFF". -/
def riffId : List Nat := [82, 73, 70, 70]

/-- Byte values of the ASCII string "fmt " (trailing space significant). -/
def fmtId : List Nat := [102, 109, 116, 32]

/-- Byte values of the ASCII string "data". -/
def dataId : List Nat := [100, 97, 116, 97]

/-- Byte of `buf` at index `i` (0 past the end; reads are bounds-checked
separately where the source's reads are). -/
def byteAt (buf : List Nat) (i : Nat) : Nat := buf.getD i 0

/-- Model of Node `buf.toString("ascii", start, stop)`: the bytes in
`[start, min stop (length buf))`, each masked to its low 7 bits, as Node's
"ascii" decoder does. -/
def asciiSlice (buf : List Nat) (start stop : Nat) : List Nat :=
  ((buf.drop start).take (stop - start)).map (fun b => b % 128)

/-- Unsigned 32-bit little-endian value of the 4 bytes at `off` (unchecked). -/
def u32le (buf : List Nat) (off : Nat) : Nat :=
  byteAt buf off + byteAt buf (off + 1) * 256 + byteAt buf (off + 2) * 65536 +
    byteAt buf (off + 3) * 16777216

/-- Model of Node `buf.readUInt32LE(off)`: `none` models the
`ERR_OUT_OF_RANGE` exception thrown when fewer than 4 bytes remain. -/
def readUInt32LE (buf : List Nat) (off : Nat) : Option Nat :=
  if off + 4 ≤ buf.length then some (u32le buf off) else none

/-- Model of Node `buf.subarray(start, stop)`: clamping, never throws. -/
def subarray (buf : List Nat) (start stop : Nat) : List Nat :=
  (buf.take stop).drop start

/-- Embedding of `parseWavSampleRate` (src/index.ts lines 88-92).  The
`readUInt32LE(24)` call is kept checked, though the `length < 28` guard
makes it in-bounds on every reachable path. -/
def parseWavSampleRate (buf : List Nat) : Except Unit Nat :=
  if buf.length < 28 then Except.ok 24000
  else if asciiSlice buf 0 4 ≠ riffId then Except.ok 24000
  else
    match readUInt32LE buf 24 with
    | none => Except.error ()
    | some v => Except.ok v

/-- The value `parseWavSampleRate` computes, written directly from the
spec's description of `readSampleRate` (with the byte values of the Node
"ascii" comparison made explicit): 24000 when shorter than 28 bytes or when
the masked bytes 0-3 are not "RIFF", else bytes 24-27 as u32 LE. -/
def readSampleRateSpec (buf : List Nat) : Nat :=
  if buf.length < 28 then 24000
  else if (buf.take 4).map (fun b => b % 128) ≠ riffId then 24000
  else byteAt buf 24 + 256 * byteAt buf 25 + 65536 * byteAt buf 26 +
    16777216 * byteAt buf 27

/-- Embedding of the chunk-walking loop of `wavToPcm` (src/index.ts lines
101-118), one call per iteration, plus the fall-through return.  The
`readUInt32LE(offset + 4)` read is in-bounds whenever the guard holds, but
the `readUInt32LE(offset + 12)` read in the "fmt " branch is not
bounds-checked by the source and can throw. -/
def wavToPcmLoop (buf : List Nat) (offset sampleRate : Nat) :
    Except Unit (List Nat × Nat) :=
  if h : offset + 8 < buf.length then
    match readUInt32LE buf (offset + 4) with
    | none => Except.error ()
    | some chunkSize =>
      if asciiSlice buf offset (offset + 4) = fmtId then
        match readUInt32LE buf (offset + 12) with
        | none => Except.error ()
        | some sr => wavToPcmLoop buf (offset + 8 + chunkSize) sr
      else if asciiSlice buf offset (offset + 4) = dataId then
        Except.ok (subarray buf (offset + 8) (offset + 8 + chunkSize), sampleRate)
      else
        wavToPcmLoop buf (offset + 8 + chunkSize) sampleRate
  else
    match parseWavSampleRate buf with
    | Except.error e => Except.error e
    | Except.ok v => Except.ok (buf.drop 44, v)
termination_by buf.length - offset
decreasing_by
  all_goals omega

/-- Embedding of `wavToPcm` (src/index.ts lines 97-119): cursor starts at
12, working sample rate at 24000. -/
def wavToPcm (buf : List Nat) : Except Unit (List Nat × Nat) :=
  wavToPcmLoop buf 12 24000

/-! ### Step lemmas for the loop -/

theorem read_ok_of_le {buf : List Nat} {off : Nat} (h : off + 4 ≤ buf.length) :
    readUInt32LE buf off = some (u32le buf off) := by
  unfold readUInt32LE
  exact if_pos h

theorem read_none_of_lt {buf : List Nat} {off : Nat} (h : buf.length < off + 4) :
    readUInt32LE buf off = none := by
  unfold readUInt32LE
  rw [if_neg]
  omega

/-- One iteration hitting a "fmt " chunk whose sample-rate field is in
bounds: the working sample rate is replaced and the cursor advances. -/
theorem loop_fmt {buf : List Nat} {off : Nat} (sr : Nat)
    (h : off + 8 < buf.length)
    (hid : asciiSlice buf off (off + 4) = fmtId)
    (hb : off + 16 ≤ buf.length) :
    wavToPcmLoop buf off sr =
      wavToPcmLoop buf (off + 8 + u32le buf (off + 4)) (u32le buf (off + 12)) := by
  rw [wavToPcmLoop]
  rw [dif_pos h, read_ok_of_le (by omega), read_ok_of_le (by omega : off + 12 + 4 ≤ buf.length)]
  simp [hid]

/-- One iteration hitting a "fmt " chunk whose sample-rate field is out of
bounds: `readUInt32LE(offset + 12)` throws. -/
theorem loop_fmt_oob {buf : List Nat} {off : Nat} (sr : Nat)
    (h : off + 8 < buf.length)
    (hid : asciiSlice buf off (off + 4) = fmtId)
    (hb : buf.length < off + 16) :
    wavToPcmLoop buf off sr = Except.error () := by
  rw [wavToPcmLoop]
  rw [dif_pos h, read_ok_of_le (by omega), read_none_of_lt (by omega : buf.length < off + 12 + 4)]
  simp [hid]

/-- One iteration hitting a "data" chunk: return its (clamped) payload with
the current working sample rate. -/
theorem loop_data {buf : List Nat} {off : Nat} (sr : Nat)
    (h : off + 8 < buf.length)
    (hid : asciiSlice buf off (off + 4) = dataId) :
    wavToPcmLoop buf off sr =
      Except.ok (subarray buf (off + 8) (off + 8 + u32le buf (off + 4)), sr) := by
  rw [wavToPcmLoop]
  rw [dif_pos h, read_ok_of_le (by omega)]
  simp [hid, fmtId, dataId]

/-- One iteration skipping an unrecognized chunk. -/
theorem loop_skip {buf : List Nat} {off : Nat} (sr : Nat)
    (h : off + 8 < buf.length)
    (hfmt : asciiSlice buf off (off + 4) ≠ fmtId)
    (hdata : asciiSlice buf off (off + 4) ≠ dataId) :
    wavToPcmLoop buf off sr = wavToPcmLoop buf (off + 8 + u32le buf (off + 4)) sr := by
  rw [wavToPcmLoop]
  rw [dif_pos h, read_ok_of_le (by omega)]
  simp [hfmt, hdata]

/-- Loop exit: the guard fails and the offset-44 fallback is returned. -/
theorem loop_exit {buf : List Nat} {off : Nat} (sr : Nat)
    (h : ¬ (off + 8 < buf.length)) :
    wavToPcmLoop buf off sr =
      match parseWavSampleRate buf with
      | Except.error e => Except.error e
      | Except.ok v => Except.ok (buf.drop 44, v) := by
  rw [wavToPcmLoop]
  rw [dif_neg h]

/-- The function parseWavSampleRate never throws: its only read is guarded by the
length check, so it always returns `readSampleRateSpec`. -/
theorem parseWavSampleRate_eq_spec (buf : List Nat) :
    parseWavSampleRate buf = Except.ok (readSampleRateSpec buf) := by
  unfold parseWavSampleRate readSampleRateSpec
  by_cases h28 : buf.length < 28
  · simp [h28]
  · rw [if_neg h28, if_neg h28]
    have hslice : asciiSlice buf 0 4 = (buf.take 4).map (fun b => b % 128) := by
      unfold asciiSlice
      simp
    by_cases hr : asciiSlice buf 0 4 ≠ riffId
    · rw [if_pos hr, if_pos (by rw [← hslice]; exact hr)]
    · rw [if_neg hr, if_neg (by rw [← hslice]; exact hr)]
      rw [read_ok_of_le (by omega)]
      unfold u32le
      ring_nf

/-- Reachability of the loop's control states: `ScanTo buf o sr o₂ sr₂`
holds when the loop, entered at cursor `o` with working sample rate `sr`,
later reaches cursor `o₂` with working sample rate `sr₂` without having
returned or thrown in between. -/
inductive ScanTo (buf : List Nat) : Nat → Nat → Nat → Nat → Prop where
  | refl (o sr : Nat) : ScanTo buf o sr o sr
  | fmtStep {o sr o₂ sr₂ : Nat}
      (h : o + 8 < buf.length)
      (hid : asciiSlice buf o (o + 4) = fmtId)
      (hb : o + 16 ≤ buf.length)
      (next : ScanTo buf (o + 8 + u32le buf (o + 4)) (u32le buf (o + 12)) o₂ sr₂) :
      ScanTo buf o sr o₂ sr₂
  | skipStep {o sr o₂ sr₂ : Nat}
      (h : o + 8 < buf.length)
      (hfmt : asciiSlice buf o (o + 4) ≠ fmtId)
      (hdata : asciiSlice buf o (o + 4) ≠ dataId)
      (next : ScanTo buf (o + 8 + u32le buf (o + 4)) sr o₂ sr₂) :
      ScanTo buf o sr o₂ sr₂

/-- The loop's value is invariant along reachable control states. -/
theorem scan_loop_eq {buf : List Nat} {o sr o₂ sr₂ : Nat}
    (h : ScanTo buf o sr o₂ sr₂) :
    wavToPcmLoop buf o sr = wavToPcmLoop buf o₂ sr₂ := by
  induction h with
  | refl o sr => rfl
  | fmtStep h hid hb next ih => rw [loop_fmt _ h hid hb, ih]
  | skipStep h hfmt hdata next ih => rw [loop_skip _ h hfmt hdata, ih]

/-- Two buffers with the same length and the same byte at every index are
equal. -/
theorem ext_of_byteAt : ∀ (b₁ b₂ : List Nat), b₁.length = b₂.length →
    (∀ i, i < b₁.length → byteAt b₁ i = byteAt b₂ i) → b₁ = b₂ := by
  intro b₁
  induction b₁ with
  | nil =>
    intro b₂ hlen _
    cases b₂ with
    | nil => rfl
    | cons y ys => simp at hlen
  | cons x xs ih =>
    intro b₂ hlen hb
    cases b₂ with
    | nil => simp at hlen
    | cons y ys =>
      have hhead : x = y := hb 0 (by simp)
      have htail : xs = ys := by
        apply ih ys (by simpa using hlen)
        intro i hi
        have := hb (i + 1) (by simpa using Nat.succ_lt_succ hi)
        simpa [byteAt, List.getD] using this
      rw [hhead, htail]

/-- If every "fmt " id occurring in the buffer leaves room for the 4-byte
sample-rate read, the loop returns normally from every start state. -/
theorem loop_ok_of_fmt_inbounds {buf : List Nat}
    (H : ∀ o, o < buf.length → asciiSlice buf o (o + 4) = fmtId →
      o + 8 < buf.length → o + 16 ≤ buf.length) :
    ∀ n off sr, buf.length - off ≤ n →
      ∃ r, wavToPcmLoop buf off sr = Except.ok r := by
  intro n
  induction n with
  | zero =>
    intro off sr hle
    rw [loop_exit sr (by omega), parseWavSampleRate_eq_spec]
    exact ⟨(buf.drop 44, readSampleRateSpec buf), rfl⟩
  | succ n ih =>
    intro off sr hle
    by_cases hg : off + 8 < buf.length
    · by_cases hfmt : asciiSlice buf off (off + 4) = fmtId
      · have hb : off + 16 ≤ buf.length := H off (by omega) hfmt hg
        rw [loop_fmt sr hg hfmt hb]
        exact ih _ _ (by omega)
      · by_cases hdata : asciiSlice buf off (off + 4) = dataId
        · rw [loop_data sr hg hdata]
          exact ⟨_, rfl⟩
        · rw [loop_skip sr hg hfmt hdata]
          exact ih _ _ (by omega)
    · rw [loop_exit sr hg, parseWavSampleRate_eq_spec]
      exact ⟨(buf.drop 44, readSampleRateSpec buf), rfl⟩

/-- Number of loop iterations started by `wavToPcmLoop buf offset _`
(branch structure mirrors the loop; the working sample rate does not
influence control flow). -/
def wavLoopSteps (buf : List Nat) (offset : Nat) : Nat :=
  if h : offset + 8 < buf.length then
    match readUInt32LE buf (offset + 4) with
    | none => 1
    | some chunkSize =>
      if asciiSlice buf offset (offset + 4) = fmtId then
        match readUInt32LE buf (offset + 12) with
        | none => 1
        | some _ => 1 + wavLoopSteps buf (offset + 8 + chunkSize)
      else if asciiSlice buf offset (offset + 4) = dataId then 1
      else 1 + wavLoopSteps buf (offset + 8 + chunkSize)
  else 0
termination_by buf.length - offset
decreasing_by
  all_goals omega

theorem steps_exit {buf : List Nat} {off : Nat} (hg : ¬ (off + 8 < buf.length)) :
    wavLoopSteps buf off = 0 := by
  rw [wavLoopSteps, dif_neg hg]

theorem steps_fmt {buf : List Nat} {off : Nat} (hg : off + 8 < buf.length)
    (hfmt : asciiSlice buf off (off + 4) = fmtId) (hb : off + 16 ≤ buf.length) :
    wavLoopSteps buf off = 1 + wavLoopSteps buf (off + 8 + u32le buf (off + 4)) := by
  rw [wavLoopSteps, dif_pos hg, read_ok_of_le (by omega),
    read_ok_of_le (by omega : off + 12 + 4 ≤ buf.length)]
  simp [hfmt]

theorem steps_fmt_oob {buf : List Nat} {off : Nat} (hg : off + 8 < buf.length)
    (hfmt : asciiSlice buf off (off + 4) = fmtId) (hb : buf.length < off + 16) :
    wavLoopSteps buf off = 1 := by
  rw [wavLoopSteps, dif_pos hg, read_ok_of_le (by omega),
    read_none_of_lt (by omega : buf.length < off + 12 + 4)]
  simp [hfmt]

theorem steps_data {buf : List Nat} {off : Nat} (hg : off + 8 < buf.length)
    (hfmt : asciiSlice buf off (off + 4) ≠ fmtId)
    (hdata : asciiSlice buf off (off + 4) = dataId) :
    wavLoopSteps buf off = 1 := by
  rw [wavLoopSteps, dif_pos hg, read_ok_of_le (by omega)]
  simp [hdata, fmtId, dataId]

theorem steps_skip {buf : List Nat} {off : Nat} (hg : off + 8 < buf.length)
    (hfmt : asciiSlice buf off (off + 4) ≠ fmtId)
    (hdata : asciiSlice buf off (off + 4) ≠ dataId) :
    wavLoopSteps buf off = 1 + wavLoopSteps buf (off + 8 + u32le buf (off + 4)) := by
  rw [wavLoopSteps, dif_pos hg, read_ok_of_le (by omega)]
  simp [hfmt, hdata]

/-- Every iteration advances the cursor by at least 8, so the iteration
count is bounded by an eighth of the bytes past the cursor. -/
theorem wavLoopSteps_le :
    ∀ (n : Nat) (buf : List Nat) (off : Nat), buf.length - off ≤ n →
      8 * wavLoopSteps buf off ≤ buf.length - off + 7 := by
  intro n
  induction n with
  | zero =>
    intro buf off hle
    rw [steps_exit (by omega)]
    omega
  | succ n ih =>
    intro buf off hle
    by_cases hg : off + 8 < buf.length
    · by_cases hfmt : asciiSlice buf off (off + 4) = fmtId
      · by_cases hb : off + 16 ≤ buf.length
        · rw [steps_fmt hg hfmt hb]
          have := ih buf (off + 8 + u32le buf (off + 4)) (by omega)
          omega
        · rw [steps_fmt_oob hg hfmt (by omega)]
          omega
      · by_cases hdata : asciiSlice buf off (off + 4) = dataId
        · rw [steps_data hg hfmt hdata]
          omega
        · rw [steps_skip hg hfmt hdata]
          have := ih buf (off + 8 + u32le buf (off + 4)) (by omega)
          omega
    · rw [steps_exit hg]
      omega

/-! ### Concrete buffers used by witnesses and counterexamples -/

/-- Well-formed minimal WAV: RIFF header, "fmt " chunk (16-byte body,
sample rate 44100 at chunk offset 12), then "data" chunk with payload
`[0, 1, 2, 3]`; 48 bytes. -/
def demoWav : List Nat :=
  [82, 73, 70, 70, 40, 0, 0, 0, 87, 65, 86, 69,
   102, 109, 116, 32, 16, 0, 0, 0,
   1, 0, 1, 0, 68, 172, 0, 0, 136, 88, 1, 0, 2, 0, 16, 0,
   100, 97, 116, 97, 4, 0, 0, 0, 0, 1, 2, 3]

/-- A 21-byte buffer whose bytes 12-15 spell "fmt ": the loop guard holds at
cursor 12 but the sample-rate read at offset 24 is out of bounds. -/
def fmtTruncBuf : List Nat :=
  [82, 73, 70, 70, 13, 0, 0, 0, 87, 65, 86, 69,
   102, 109, 116, 32, 1, 0, 0, 0, 7]

/-- A 30-byte buffer containing no "fmt " id anywhere. -/
def plainBuf : List Nat :=
  [82, 73, 70, 70, 22, 0, 0, 0, 87, 65, 86, 69,
   0, 0, 0, 0, 0, 0, 0, 0, 0, 0, 0, 0, 0, 0, 0, 0, 0, 0]

/-- A 28-byte buffer whose first byte is 0xD2 (not ASCII "R"), which Node's
"ascii" decoding masks to 0x52 = "R"; bytes 24-27 encode 22050. -/
def maskedRiffBuf : List Nat :=
  [210, 73, 70, 70, 0, 0, 0, 0, 0, 0, 0, 0,
   0, 0, 0, 0, 0, 0, 0, 0, 0, 0, 0, 0, 34, 86, 0, 0]

/-- A 48-byte buffer with no "data" chunk: one "LIST" chunk whose declared
size 100 jumps the cursor past the end; bytes 24-27 encode 44100 and bytes
44-47 are `[9, 9, 9, 9]`. -/
def noDataBuf : List Nat :=
  [82, 73, 70, 70, 48, 0, 0, 0, 87, 65, 86, 69,
   76, 73, 83, 84, 100, 0, 0, 0,
   0, 0, 0, 0, 68, 172, 0, 0, 0, 0, 0, 0, 0, 0, 0, 0,
   0, 0, 0, 0, 0, 0, 0, 0, 9, 9, 9, 9]

/-- A 46-byte buffer with a "data" chunk (payload `[5, 6]`) before a "fmt "
chunk declaring sample rate 44100. -/
def dataFirstBuf : List Nat :=
  [82, 73, 70, 70, 36, 0, 0, 0, 87, 65, 86, 69,
   100, 97, 116, 97, 2, 0, 0, 0, 5, 6,
   102, 109, 116, 32, 16, 0, 0, 0,
   1, 0, 1, 0, 68, 172, 0, 0, 136, 88, 1, 0, 2, 0, 16, 0]

/-- A 23-byte buffer with a "data" chunk declaring size 100 but only 3
payload bytes actually present. -/
def truncDataBuf : List Nat :=
  [82, 73, 70, 70, 15, 0, 0, 0, 87, 65, 86, 69,
   100, 97, 116, 97, 100, 0, 0, 0, 1, 2, 3]

/-- A 3-byte buffer. -/
def tinyBuf : List Nat := [1, 2, 3]

/-- A 30-byte buffer, no "data" chunk: a "JUNK" chunk of declared size 200
jumps the cursor past the end. -/
def shortNoDataBuf : List Nat :=
  [82, 73, 70, 70, 22, 0, 0, 0, 87, 65, 86, 69,
   74, 85, 78, 75, 200, 0, 0, 0,
   0, 0, 0, 0, 0, 0, 0, 0, 0, 0]

/-- Same bytes as `c8bufB`, built as a plain literal. -/
def c8bufA : List Nat := [82, 73, 70, 70, 1]

/-- Same bytes as `c8bufA`, built from replicate and append. -/
def c8bufB : List Nat := List.replicate 1 82 ++ [73, 70, 70, 1]

/-! ### Claim theorems -/

/-- Claim C1, amended: `parseWavSampleRate` returns a value for every
input; `wavToPcm` returns a value for every buffer in which each
occurrence of the chunk id "fmt " (after Node's 7-bit ascii masking) at an
offset `o` satisfying the loop guard `o + 8 < length` also leaves the
4 sample-rate bytes in bounds (`o + 16 ≤ length`).  Without that proviso
`wavToPcm` can throw, see `wavToPcm_raises_on_truncated_fmt`. -/
theorem wavToPcm_ok_of_fmt_inbounds (buf : List Nat)
    (H : ∀ o, o < buf.length → asciiSlice buf o (o + 4) = fmtId →
      o + 8 < buf.length → o + 16 ≤ buf.length) :
    (∃ v, parseWavSampleRate buf = Except.ok v) ∧
      ∃ r, wavToPcm buf = Except.ok r := by
  refine ⟨⟨readSampleRateSpec buf, parseWavSampleRate_eq_spec buf⟩, ?_⟩
  unfold wavToPcm
  exact loop_ok_of_fmt_inbounds H buf.length 12 24000 (by omega)

/-- Witness for `wavToPcm_ok_of_fmt_inbounds` at `plainBuf`. -/
theorem wavToPcm_ok_of_fmt_inbounds_witness :
    (∃ v, parseWavSampleRate plainBuf = Except.ok v) ∧
      ∃ r, wavToPcm plainBuf = Except.ok r :=
  wavToPcm_ok_of_fmt_inbounds plainBuf (by decide)

/-- Counterexample to claim C1 as stated: on a 21-byte buffer with "fmt "
at offset 12, the unguarded `readUInt32LE(offset + 12)` at offset 24 is out
of range and `wavToPcm` throws rather than returning a result. -/
theorem wavToPcm_raises_on_truncated_fmt :
    wavToPcm fmtTruncBuf = Except.error () := by
  unfold wavToPcm
  exact loop_fmt_oob 24000 (by decide) (by decide) (by decide)

/-- Claim C2: whenever the chunk walk reaches a "fmt " chunk at offset `f`
(with its sample-rate field in bounds) and, scanning on from the following
chunk, reaches a "data" chunk at offset `d` with the working sample rate
still the one read from that "fmt " chunk, `wavToPcm` returns the data
chunk's payload as pcm and the u32le read at 12 bytes into the "fmt "
chunk's region as the sample rate. -/
theorem wavToPcm_fmt_before_data (buf : List Nat) (f d sr₁ : Nat)
    (h₁ : ScanTo buf 12 24000 f sr₁)
    (hgf : f + 8 < buf.length)
    (hidf : asciiSlice buf f (f + 4) = fmtId)
    (hbf : f + 16 ≤ buf.length)
    (h₂ : ScanTo buf (f + 8 + u32le buf (f + 4)) (u32le buf (f + 12)) d
      (u32le buf (f + 12)))
    (hgd : d + 8 < buf.length)
    (hidd : asciiSlice buf d (d + 4) = dataId) :
    wavToPcm buf =
      Except.ok (subarray buf (d + 8) (d + 8 + u32le buf (d + 4)),
        u32le buf (f + 12)) := by
  unfold wavToPcm
  rw [scan_loop_eq h₁, loop_fmt sr₁ hgf hidf hbf, scan_loop_eq h₂,
    loop_data _ hgd hidd]

/-- Witness for `wavToPcm_fmt_before_data`: the minimal well-formed WAV of
the claim yields pcm `[0, 1, 2, 3]` and sample rate 44100. -/
theorem wavToPcm_fmt_before_data_witness :
    wavToPcm demoWav = Except.ok ([0, 1, 2, 3], 44100) :=
  wavToPcm_fmt_before_data demoWav 12 36 24000 (ScanTo.refl 12 24000)
    (by decide) (by decide) (by decide) (ScanTo.refl 36 44100)
    (by decide) (by decide)

/-- Claim C3: when the chunk walk exits without finding a "data" chunk,
`wavToPcm` returns the bytes from fixed offset 44 to the end as pcm and
`parseWavSampleRate` of the original buffer as the sample rate, not the
working sample rate accumulated during the scan. -/
theorem wavToPcm_no_data_fallback (buf : List Nat) (o sr : Nat)
    (hscan : ScanTo buf 12 24000 o sr)
    (hexit : ¬ (o + 8 < buf.length)) :
    wavToPcm buf = Except.ok (buf.drop 44, readSampleRateSpec buf) ∧
      parseWavSampleRate buf = Except.ok (readSampleRateSpec buf) := by
  refine ⟨?_, parseWavSampleRate_eq_spec buf⟩
  unfold wavToPcm
  rw [scan_loop_eq hscan, loop_exit sr hexit, parseWavSampleRate_eq_spec]

/-- Witness for `wavToPcm_no_data_fallback` at `noDataBuf` (length 48, no
"data" chunk): pcm is bytes 44.. and the rate comes from bytes 24-27. -/
theorem wavToPcm_no_data_fallback_witness :
    wavToPcm noDataBuf = Except.ok ([9, 9, 9, 9], 44100) ∧
      parseWavSampleRate noDataBuf = Except.ok 44100 :=
  wavToPcm_no_data_fallback noDataBuf 120 24000
    (ScanTo.skipStep (by decide) (by decide) (by decide)
      (ScanTo.refl 120 24000))
    (by decide)

/-- Claim C4: when the chunk walk reaches a "data" chunk with the working
sample rate still at its initial value 24000 (in particular whenever no
"fmt " chunk precedes it), `wavToPcm` returns that data payload with
sample rate 24000, regardless of any later "fmt " chunk. -/
theorem wavToPcm_data_before_fmt (buf : List Nat) (d : Nat)
    (hscan : ScanTo buf 12 24000 d 24000)
    (hgd : d + 8 < buf.length)
    (hidd : asciiSlice buf d (d + 4) = dataId) :
    wavToPcm buf =
      Except.ok (subarray buf (d + 8) (d + 8 + u32le buf (d + 4)), 24000) := by
  unfold wavToPcm
  rw [scan_loop_eq hscan, loop_data 24000 hgd hidd]

/-- Witness for `wavToPcm_data_before_fmt` at `dataFirstBuf`: the "data"
chunk at offset 12 wins with rate 24000 although a "fmt " chunk with rate
44100 follows. -/
theorem wavToPcm_data_before_fmt_witness :
    wavToPcm dataFirstBuf = Except.ok ([5, 6], 24000) :=
  wavToPcm_data_before_fmt dataFirstBuf 12 (ScanTo.refl 12 24000)
    (by decide) (by decide)

/-- Claim C5, amended: `parseWavSampleRate` always returns a value:
24000 when the buffer is shorter than 28 bytes, 24000 when bytes 0-3
masked to their low 7 bits (Node "ascii" decoding) are not exactly "RIFF",
and otherwise bytes 24-27 as an unsigned 32-bit little-endian integer.
The claim's byte-for-byte "RIFF" comparison is not what the code does:
high bits are masked, see `parseWavSampleRate_masks_riff`. -/
theorem parseWavSampleRate_total (buf : List Nat) :
    parseWavSampleRate buf = Except.ok (readSampleRateSpec buf) :=
  parseWavSampleRate_eq_spec buf

/-- Counterexample to claim C5 as stated: `maskedRiffBuf` does not start
with the bytes of ASCII "RIFF" (its first byte is 0xD2 = 210), yet
`parseWavSampleRate` returns the u32le at offset 24 (22050), not 24000. -/
theorem parseWavSampleRate_masks_riff :
    parseWavSampleRate maskedRiffBuf = Except.ok 22050 ∧
      maskedRiffBuf.take 4 ≠ riffId ∧ (22050 : Nat) ≠ 24000 :=
  ⟨rfl, by decide, by decide⟩

/-- Claim C6: a "data" chunk whose declared size extends past the end of
the buffer does not throw; the returned pcm is the truncating slice from
the payload start to the actual end of the buffer. -/
theorem wavToPcm_data_truncated (buf : List Nat) (d sr : Nat)
    (hscan : ScanTo buf 12 24000 d sr)
    (hgd : d + 8 < buf.length)
    (hidd : asciiSlice buf d (d + 4) = dataId)
    (hover : buf.length < d + 8 + u32le buf (d + 4)) :
    wavToPcm buf = Except.ok (buf.drop (d + 8), sr) := by
  unfold wavToPcm
  rw [scan_loop_eq hscan, loop_data sr hgd hidd]
  unfold subarray
  rw [List.take_of_length_le (by omega)]

/-- Witness for `wavToPcm_data_truncated` at `truncDataBuf`: declared data
size 100, only 3 bytes present, pcm is those 3 bytes. -/
theorem wavToPcm_data_truncated_witness :
    wavToPcm truncDataBuf = Except.ok ([1, 2, 3], 24000) :=
  wavToPcm_data_truncated truncDataBuf 12 24000 (ScanTo.refl 12 24000)
    (by decide) (by decide) (by decide)

/-- Claim C7: on buffers shorter than 20 bytes the loop guard is false at
the initial cursor 12, the loop body never runs, and `wavToPcm` goes
straight to the offset-44 fallback (which here yields rate 24000 since the
buffer is also shorter than 28 bytes). -/
theorem wavToPcm_short_buffer (buf : List Nat) (h : buf.length < 20) :
    ¬ (12 + 8 < buf.length) ∧
      wavToPcm buf = Except.ok (buf.drop 44, 24000) ∧
      parseWavSampleRate buf = Except.ok 24000 := by
  have hpsr : parseWavSampleRate buf = Except.ok 24000 := by
    unfold parseWavSampleRate
    rw [if_pos (by omega)]
  refine ⟨by omega, ?_, hpsr⟩
  unfold wavToPcm
  rw [loop_exit 24000 (by omega), hpsr]

/-- Witness for `wavToPcm_short_buffer` at the 3-byte `tinyBuf`. -/
theorem wavToPcm_short_buffer_witness :
    ¬ (12 + 8 < tinyBuf.length) ∧
      wavToPcm tinyBuf = Except.ok ([], 24000) ∧
      parseWavSampleRate tinyBuf = Except.ok 24000 :=
  wavToPcm_short_buffer tinyBuf (by decide)

/-- Claim C8: `wavToPcm` is deterministic, a function of the input bytes
only: any two buffers of the same length agreeing byte-for-byte produce
identical results. -/
theorem wavToPcm_deterministic (b₁ b₂ : List Nat)
    (hlen : b₁.length = b₂.length)
    (hb : ∀ i, i < b₁.length → byteAt b₁ i = byteAt b₂ i) :
    wavToPcm b₁ = wavToPcm b₂ := by
  rw [ext_of_byteAt b₁ b₂ hlen hb]

/-- Witness for `wavToPcm_deterministic` on two differently-built buffers
with the same bytes. -/
theorem wavToPcm_deterministic_witness : wavToPcm c8bufA = wavToPcm c8bufB :=
  wavToPcm_deterministic c8bufA c8bufB (by decide) (by decide)

/-- Claim C9: the chunk walk of `wavToPcm` terminates on every buffer:
each iteration advances the cursor by at least 8, so the loop runs at most
the ceiling of length / 8 iterations. -/
theorem wavToPcm_terminates (buf : List Nat) :
    wavLoopSteps buf 12 ≤ (buf.length + 7) / 8 := by
  have h := wavLoopSteps_le buf.length buf 12 (by omega)
  omega

/-- Claim C10: on a buffer of length at most 44 whose chunk walk finds no
"data" chunk, the offset-44 fallback slice clamps to the buffer's end and
`wavToPcm` returns an empty pcm. -/
theorem wavToPcm_small_no_data_empty (buf : List Nat) (o sr : Nat)
    (hlen : buf.length ≤ 44)
    (hscan : ScanTo buf 12 24000 o sr)
    (hexit : ¬ (o + 8 < buf.length)) :
    wavToPcm buf = Except.ok ([], readSampleRateSpec buf) := by
  unfold wavToPcm
  rw [scan_loop_eq hscan, loop_exit sr hexit, parseWavSampleRate_eq_spec]
  show Except.ok (buf.drop 44, readSampleRateSpec buf) =
    Except.ok ([], readSampleRateSpec buf)
  rw [List.drop_eq_nil_of_le (by omega)]

/-- Witness for `wavToPcm_small_no_data_empty` at the 30-byte
`shortNoDataBuf`. -/
theorem wavToPcm_small_no_data_empty_witness :
    wavToPcm shortNoDataBuf = Except.ok ([], 0) :=
  wavToPcm_small_no_data_empty shortNoDataBuf 220 24000 (by decide)
    (ScanTo.skipStep (by decide) (by decide) (by decide)
      (ScanTo.refl 220 24000))
    (by decide)

end WavDemux
